import Mathlib

/-!
Shallow embedding of the tus-rs client core (revivelabs/tus-rs).

Sources embedded here:
- src/tus/upload_meta.rs : UploadMeta, UploadStatus, validate_path, data, data64,
  with_bytes_uploaded, upload_complete
- src/tus/headers.rs     : header-name constants, default_headers, TusHeaders decoder
- src/tus/ops.rs         : TusOp, method, headers, handle_response
- src/tus/mod.rs         : TusServerInfo decoder, UploadStatus::new
- src/client.rs          : Client::run status classification, terminate, resume loop

Modelling conventions:
- Rust usize is modelled as Nat (no subtraction/overflow is exercised by the code).
- Rust HashMap String String is modelled as an association list with replacing
  insert; only lookups are observable, and the unspecified iteration order of a
  HashMap is modelled explicitly by quantifying over permutations where the code
  iterates a map (UploadMeta::data64).
- A Rust panic (an unwrap that can fail) is modelled as the value none of an
  Option-returning function; Except models Result.
- Strings are treated as sequences of unicode scalar values; the base64 routines
  operate on their code points, which coincides with the byte-level behaviour of
  the Rust code on ASCII data, the fragment all claims and counterexamples use.
- reqwest HeaderMap iteration renders header names lowercase, and HeaderMap::get
  is case-insensitive; both facts are modelled where the source relies on them.
-/

deriving instance DecidableEq for Except

/-- Association-list model of a Rust HashMap of strings: lookup (HashMap::get). -/
def hget (k : String) (h : List (String × String)) : Option String :=
  (h.find? (fun p => p.1 == k)).map (fun p => p.2)

/-- Association-list model of HashMap::insert: the new binding replaces any old one. -/
def hinsert (k v : String) (h : List (String × String)) : List (String × String) :=
  (k, v) :: h.filter (fun p => p.1 != k)

/-- Association-list model of HashMap::extend: later entries replace earlier bindings. -/
def hextend (h more : List (String × String)) : List (String × String) :=
  more.foldl (fun acc p => hinsert p.1 p.2 acc) h

/-- HashMap of HTTP headers, as in src/tus/headers.rs (type Headers). -/
abbrev Headers := List (String × String)

/-- ASCII lowercase of one character. -/
def lowerChar (c : Char) : Char :=
  if 65 ≤ c.toNat ∧ c.toNat ≤ 90 then Char.ofNat (c.toNat + 32) else c

/-- ASCII lowercase of a string, the normalization reqwest applies to header names. -/
def lowerStr (s : String) : String := String.mk (s.toList.map lowerChar)

/-- Case-insensitive header lookup, modelling reqwest HeaderMap::get. -/
def rget (k : String) (h : Headers) : Option String :=
  (h.find? (fun p => lowerStr p.1 == lowerStr k)).map (fun p => p.2)

/-- Model of str::parse::<usize>: all-digit nonempty strings parse, anything else fails. -/
def parseNat? (s : String) : Option Nat :=
  if s.isEmpty then none
  else if s.toList.all Char.isDigit then
    some (s.toList.foldl (fun acc c => acc * 10 + (c.toNat - 48)) 0)
  else none

/-- The standard base64 alphabet used by base64::engine::general_purpose::STANDARD. -/
def base64Alphabet : List Char :=
  "ABCDEFGHIJKLMNOPQRSTUVWXYZabcdefghijklmnopqrstuvwxyz0123456789+/".toList

/-- Character for a 6-bit value. -/
def b64CharOf (n : Nat) : Char := base64Alphabet.getD n 'A'

/-- Index of a character in the base64 alphabet, none for characters outside it. -/
def b64ValueOf (c : Char) : Option Nat := base64Alphabet.indexOf? c

/-- Standard padded base64 encoding of a byte list. -/
def base64EncodeBytes : List Nat → List Char
  | [] => []
  | [b1] => [b64CharOf (b1 / 4), b64CharOf (b1 % 4 * 16), '=', '=']
  | [b1, b2] =>
      [b64CharOf (b1 / 4), b64CharOf (b1 % 4 * 16 + b2 / 16), b64CharOf (b2 % 16 * 4), '=']
  | b1 :: b2 :: b3 :: rest =>
      b64CharOf (b1 / 4) :: b64CharOf (b1 % 4 * 16 + b2 / 16) ::
      b64CharOf (b2 % 16 * 4 + b3 / 64) :: b64CharOf (b3 % 64) ::
      base64EncodeBytes rest

/-- Base64 encoding of a string (its code points as bytes; identity with Rust on ASCII). -/
def base64Encode (s : String) : String :=
  String.mk (base64EncodeBytes (s.toList.map Char.toNat))

/-- Strict padded base64 decoding of a character list, mirroring the STANDARD engine:
blocks of four symbols, padding only at the end, non-canonical trailing bits rejected. -/
def base64DecodeChars : List Char → Option (List Nat)
  | [] => some []
  | a :: b :: c :: d :: rest =>
    match b64ValueOf a, b64ValueOf b with
    | some va, some vb =>
      if c = '=' then
        if d = '=' ∧ rest = [] ∧ vb % 16 = 0 then some [va * 4 + vb / 16] else none
      else
        match b64ValueOf c with
        | some vc =>
          if d = '=' then
            if rest = [] ∧ vc % 4 = 0 then
              some [va * 4 + vb / 16, vb % 16 * 16 + vc / 4]
            else none
          else
            match b64ValueOf d with
            | some vd =>
              (base64DecodeChars rest).map
                (fun tail => (va * 4 + vb / 16) :: (vb % 16 * 16 + vc / 4) ::
                  (vc % 4 * 64 + vd) :: tail)
            | none => none
        | none => none
    | _, _ => none
  | _ => none

/-- Base64 decoding of a string to bytes; none models a decode error of the engine. -/
def base64Decode? (s : String) : Option (List Nat) := base64DecodeChars s.toList

/-- Model of String::from_utf8 on the ASCII fragment: every byte below 128 decodes to
itself, anything else is treated as a failure. All data in this development is ASCII. -/
def utf8Ascii? (bytes : List Nat) : Option String :=
  if bytes.all (fun b => b < 128) then some (String.mk (bytes.map Char.ofNat)) else none

/-- The error enum of src/error.rs (constructors restricted to those the embedded code
produces). RequestError carries a String in error.rs; the GetOffset branch of ops.rs
names the bare constructor, modelled as the empty payload. -/
inductive TusError where
  | UnexpectedStatusCode (code : Nat) (text : String)
  | NotFoundError
  | ChecksumMismatch
  | InvalidFilename (s : String)
  | EmptyFilename
  | MissingHeader (h : String)
  | MissingUploadUrl
  | FileReadError (s : String)
  | WrongUploadOffsetError
  | FileTooLarge
  | RequestError (s : String)
  | BadRequest (s : String)
  | StringParseError (s : String)
  | ParsingError
deriving DecidableEq

/-- UploadStatus of src/tus/mod.rs: bytes_uploaded and size. -/
structure UploadStatus where
  bytes_uploaded : Nat
  size : Nat
deriving DecidableEq

/-- UploadStatus::new of src/tus/mod.rs: bytes_uploaded.unwrap_or(0). -/
def UploadStatus.new (size : Nat) (bytes_uploaded : Option Nat) : UploadStatus :=
  ⟨bytes_uploaded.getD 0, size⟩

/-- UploadMeta of src/tus/upload_meta.rs. Url and PathBuf are modelled as String;
the HashMap-typed fields are association lists. Field order follows the source:
upload_host, file_path, remote_url, status, version, extra_meta, mime_type,
custom_headers, error_count. -/
structure UploadMeta where
  upload_host : String
  file_path : String
  remote_url : Option String
  status : UploadStatus
  version : String
  extra_meta : Option (List (String × String))
  mime_type : Option String
  custom_headers : Option (List (String × String))
  error_count : Nat
deriving DecidableEq

/-- UploadMeta::upload_complete: bytes_uploaded >= size. -/
def UploadMeta.upload_complete (m : UploadMeta) : Bool :=
  m.status.size ≤ m.status.bytes_uploaded

/-- UploadMeta::with_bytes_uploaded: updated copy, only status.bytes_uploaded changes. -/
def UploadMeta.with_bytes_uploaded (m : UploadMeta) (bytes_uploaded : Nat) : UploadMeta :=
  ⟨m.upload_host, m.file_path, m.remote_url, ⟨bytes_uploaded, m.status.size⟩,
   m.version, m.extra_meta, m.mime_type, m.custom_headers, m.error_count⟩

/-- Filesystem view of a path, the inputs validate_path and metadata() read:
whether the path exists, whether it is a directory, its basename (none models a
path with no final component), and the file length. -/
structure FileInfo where
  fileExists : Bool
  isDir : Bool
  filename : Option String
  size : Nat
deriving DecidableEq

/-- validate_path of src/tus/upload_meta.rs over the filesystem view. -/
def validate_path (fi : FileInfo) : Except TusError Unit :=
  if !fi.fileExists then Except.error (TusError.FileReadError "File not found")
  else if fi.isDir then Except.error (TusError.FileReadError "Cannot be a directory")
  else
    match fi.filename with
    | none => Except.error TusError.EmptyFilename
    | some fn =>
      if fn = "/" then Except.error (TusError.InvalidFilename "Filename cannot be '/'")
      else Except.ok ()

/-- UploadMeta::new: validate the path, read the size from file metadata, build the
initial record (version "1", remote_url absent, mime_type absent, error_count 0). -/
def UploadMeta.new (fi : FileInfo) (file_path upload_host : String)
    (bytes_uploaded : Option Nat) (extra_meta custom_headers : Option (List (String × String))) :
    Except TusError UploadMeta :=
  match validate_path fi with
  | Except.error e => Except.error e
  | Except.ok _ =>
    Except.ok ⟨upload_host, file_path, none, UploadStatus.new fi.size bytes_uploaded,
      "1", extra_meta, mime_type, custom_headers, 0⟩
where mime_type : Option String := none

/-- The map built by UploadMeta::data: filename, then optional filetype, then the
extra_meta entries extended over them (insertion into a HashMap). -/
def dataMap (m : UploadMeta) : List (String × String) :=
  let h := hinsert "filename" m.file_path []
  let h := match m.mime_type with
    | some mime => hinsert "filetype" mime h
    | none => h
  match m.extra_meta with
  | some extra => hextend h extra
  | none => h

/-- One entry of the Upload-Metadata value as formatted by UploadMeta::data64:
the key, a space, and the base64 of the value. -/
def encodePair (p : String × String) : String := p.1 ++ " " ++ base64Encode p.2

/-- Comma join used by UploadMeta::data64. -/
def joinComma (l : List String) : String := String.intercalate "," l

/-- All ways of inserting an element into a list, in every position. -/
def insertsOf (a : String × String) : List (String × String) → List (List (String × String))
  | [] => [[a]]
  | b :: l => (a :: b :: l) :: (insertsOf a l).map (fun l2 => b :: l2)

/-- All permutations of a list of entries, by structural recursion. -/
def permsOf : List (String × String) → List (List (String × String))
  | [] => [[]]
  | a :: l => (permsOf l).flatMap (insertsOf a)

/-- All strings UploadMeta::data64 can return: the comma join of the encoded entries
of the data map in any order, since into_iter on a Rust HashMap yields its entries
in an unspecified order. -/
def data64Outputs (m : UploadMeta) : List String :=
  (permsOf (dataMap m)).map (fun l => joinComma (l.map encodePair))

/-- Header-name constant of src/tus/headers.rs. -/
def UPLOAD_OFFSET : String := "Upload-Offset"

/-- Header-name constant of src/tus/headers.rs. -/
def UPLOAD_LENGTH : String := "Upload-Length"

/-- Header-name constant of src/tus/headers.rs. -/
def TUS_VERSION : String := "Tus-Version"

/-- Header-name constant of src/tus/headers.rs. -/
def TUS_RESUMABLE : String := "Tus-Resumable"

/-- Header-name constant of src/tus/headers.rs. -/
def TUS_EXTENSION : String := "Tus-Extension"

/-- Header-name constant of src/tus/headers.rs. -/
def TUS_MAX_SIZE : String := "Tus-Max-Size"

/-- Header-name constant of src/tus/headers.rs. -/
def TUS_CHECKSUM_ALGO : String := "Tus-Checksum-Algorithm"

/-- Header-name constant of src/tus/headers.rs. -/
def CONTENT_TYPE : String := "Content-Type"

/-- Header-name constant of src/tus/headers.rs. -/
def UPLOAD_METADATA : String := "Upload-Metadata"

/-- Header-name constant of src/tus/headers.rs. -/
def TUS_LOCATION : String := "Location"

/-- default_headers of src/tus/headers.rs: only Tus-Resumable 1.0.0. -/
def default_headers : Headers := [(TUS_RESUMABLE, "1.0.0")]

/-- TusHeaders of src/tus/headers.rs, field order as in the source. -/
structure TusHeaders where
  offset : Option Nat
  upload_length : Option Nat
  version : Option String
  supported_versions : Option (List String)
  resumable : Option String
  extensions : Option (List String)
  max_size : Option Nat
  checksum_algorithms : Option (List String)
  upload_metadata : Option (List (String × String))
  location : Option String
deriving DecidableEq

/-- One entry of the decoded metadata value: splitn(2, ':') on a piece, the key being
the part before the first colon and the value the rest (empty when no colon). -/
def metadataEntry (piece : String) : String × String :=
  match piece.splitOn ":" with
  | [] => (piece, "")
  | k :: rest => (k, String.intercalate ":" rest)

/-- The fold of the Upload-Metadata branch of the TusHeaders decoder: split the decoded
text on the ';' delimiter and insert each piece as a key/value pair. -/
def metadataFold (s : String) : List (String × String) :=
  (s.splitOn ";").foldl (fun acc piece => hinsert (metadataEntry piece).1 (metadataEntry piece).2 acc) []

/-- The Upload-Metadata branch of the TusHeaders decoder (headers.rs lines 103-122),
given the raw header value: base64-decode the whole value (a failure yields an absent
field via .ok()), then an unwrap of String::from_utf8 (outer none models that panic),
then split on ';' and fold ':'-separated pairs into a map. -/
def decodeUploadMetadataValue (v : String) : Option (Option (List (String × String))) :=
  match base64Decode? v with
  | none => some none
  | some bytes =>
    match utf8Ascii? bytes with
    | none => none
    | some s => some (some (metadataFold s))

/-- TusHeaders::from::<HeaderMap> of src/tus/headers.rs. The HeaderMap is first
collected into a HashMap through HeaderName::to_string, which renders names
lowercase; every subsequent HashMap::get uses the mixed-case header constants and is
case-sensitive. The outer Option models the panics in the source: the unwrap on a
present but non-numeric Tus-Max-Size and the unwrap of String::from_utf8. -/
def TusHeaders.fromHeaderMap (value : Headers) : Option TusHeaders :=
  let headers : Headers := value.map (fun p => (lowerStr p.1, p.2))
  let version := hget TUS_RESUMABLE headers
  let max_size? : Option (Option Nat) :=
    match hget TUS_MAX_SIZE headers with
    | none => some none
    | some v =>
      match parseNat? v with
      | none => none
      | some n => some (some n)
  let extensions := (hget TUS_EXTENSION headers).map (fun v => v.splitOn ",")
  let supported_versions := (hget TUS_VERSION headers).map (fun v => v.splitOn ",")
  let checksum_algorithms := (hget TUS_CHECKSUM_ALGO headers).map (fun v => v.splitOn ",")
  let offset := (hget UPLOAD_OFFSET headers).bind parseNat?
  let upload_length := (hget UPLOAD_LENGTH headers).bind parseNat?
  let resumable := hget TUS_RESUMABLE headers
  let location := hget TUS_LOCATION headers
  let upload_metadata? : Option (Option (List (String × String))) :=
    match hget UPLOAD_METADATA headers with
    | none => some none
    | some v => decodeUploadMetadataValue v
  match max_size?, upload_metadata? with
  | some max_size, some upload_metadata =>
    some ⟨offset, upload_length, version, supported_versions, resumable, extensions,
      max_size, checksum_algorithms, upload_metadata, location⟩
  | _, _ => none

/-- TusOp of src/tus/ops.rs: the closed operation/extension tag set. -/
inductive TusOp where
  | GetOffset
  | Upload
  | Creation
  | Expiration
  | Checksum
  | Termination
  | Concatenation
deriving DecidableEq

/-- TusHttpMethod of src/tus/http.rs. -/
inductive TusHttpMethod where
  | Head
  | Post
  | Get
  | Patch
  | Options
  | Delete
deriving DecidableEq

/-- FromStr for TusOp goes through serde_json::from_str with rename_all lowercase,
so only a JSON string literal of the lowercase variant name parses. -/
def parseTusOp? (s : String) : Option TusOp :=
  if s = "\"getoffset\"" then some TusOp.GetOffset
  else if s = "\"upload\"" then some TusOp.Upload
  else if s = "\"creation\"" then some TusOp.Creation
  else if s = "\"expiration\"" then some TusOp.Expiration
  else if s = "\"checksum\"" then some TusOp.Checksum
  else if s = "\"termination\"" then some TusOp.Termination
  else if s = "\"concatenation\"" then some TusOp.Concatenation
  else none

/-- TusServerInfo of src/tus/mod.rs, field order as in the source. -/
structure TusServerInfo where
  version : Option String
  max_size : Option Nat
  extensions : Option (List TusOp)
  supported_versions : List String
  supported_checksum_algorithms : Option (List String)
deriving DecidableEq

/-- TusServerInfo::from::<HeaderMap> of src/tus/mod.rs. Lookups go straight to the
HeaderMap (case-insensitive). The outer Option models the panic of the source: a
present but non-numeric Tus-Max-Size hits parse::<usize>().unwrap(). -/
def TusServerInfo.fromHeaderMap (value : Headers) : Option TusServerInfo :=
  let version := rget TUS_RESUMABLE value
  let max_size? : Option (Option Nat) :=
    match rget TUS_MAX_SIZE value with
    | none => some none
    | some v =>
      match parseNat? v with
      | none => none
      | some n => some (some n)
  let extensions := (rget TUS_EXTENSION value).map
    (fun v => (v.splitOn ",").filterMap parseTusOp?)
  let supported_versions :=
    match rget TUS_VERSION value with
    | none => []
    | some v => v.splitOn ","
  let supported_checksum_algorithms := (rget TUS_CHECKSUM_ALGO value).map
    (fun v => v.splitOn ",")
  match max_size? with
  | none => none
  | some max_size =>
    some ⟨version, max_size, extensions, supported_versions, supported_checksum_algorithms⟩

/-- TusOp::method of src/tus/ops.rs, every arm as written in the source. -/
def TusOp.method : TusOp → TusHttpMethod
  | TusOp.GetOffset => TusHttpMethod.Head
  | TusOp.Upload => TusHttpMethod.Patch
  | TusOp.Creation => TusHttpMethod.Post
  | TusOp.Expiration => TusHttpMethod.Post
  | TusOp.Checksum => TusHttpMethod.Post
  | TusOp.Termination => TusHttpMethod.Post
  | TusOp.Concatenation => TusHttpMethod.Post

/-- The header names each operation inserts after the custom headers in
TusOp::headers (the operation-specific arms of the match). -/
def opSpecificHeaderNames : TusOp → List String
  | TusOp.Creation => [UPLOAD_LENGTH]
  | TusOp.Upload => [CONTENT_TYPE, UPLOAD_LENGTH, UPLOAD_OFFSET]
  | _ => []

/-- TusOp::headers of src/tus/ops.rs. The data64Value argument stands for the string
metadata.data64() returned (an element of data64Outputs metadata); defaults first,
then the metadata header, then the custom headers, and last the operation-specific
inserts. The Rust function returns Result but no arm can fail. -/
def TusOp.headers (op : TusOp) (metadata : UploadMeta) (data64Value : String) : Headers :=
  let hs := default_headers
  let hs := hinsert UPLOAD_METADATA data64Value hs
  let hs :=
    match metadata.custom_headers with
    | some ch => hextend hs ch
    | none => hs
  match op with
  | TusOp.Creation => hinsert UPLOAD_LENGTH (toString metadata.status.size) hs
  | TusOp.Upload =>
      hinsert UPLOAD_OFFSET (toString metadata.status.bytes_uploaded)
        (hinsert UPLOAD_LENGTH (toString metadata.status.size)
          (hinsert CONTENT_TYPE "application/offset+octet-stream" hs))
  | _ => hs

/-- One HTTP response as the dispatcher sees it: numeric status, header map, and
optional body text. -/
structure Response where
  status : Nat
  headers : Headers
  body : Option String
deriving DecidableEq

/-- response.text().await.unwrap_or("") of src/client.rs. -/
def Response.text (r : Response) : String := r.body.getD ""

/-- TusOp::handle_response of src/tus/ops.rs. Creation strictly requires Location and
stores it as the remote destination; GetOffset strictly requires a parsable
Upload-Offset; Upload requires a parsable Upload-Offset and adopts it via
with_bytes_uploaded; every other tag returns the metadata unchanged. -/
def TusOp.handle_response (op : TusOp) (response : Response) (metadata : UploadMeta) :
    Except TusError UploadMeta :=
  match op with
  | TusOp.Creation =>
    match rget TUS_LOCATION response.headers with
    | none => Except.error (TusError.MissingHeader TUS_LOCATION)
    | some loc =>
      Except.ok ⟨metadata.upload_host, metadata.file_path, some loc, metadata.status,
        metadata.version, metadata.extra_meta, metadata.mime_type,
        metadata.custom_headers, metadata.error_count⟩
  | TusOp.GetOffset =>
    match rget UPLOAD_OFFSET response.headers with
    | none => Except.error (TusError.RequestError "")
    | some v =>
      match parseNat? v with
      | none => Except.error TusError.ParsingError
      | some n => Except.ok (metadata.with_bytes_uploaded n)
  | TusOp.Upload =>
    match (rget UPLOAD_OFFSET response.headers).bind parseNat? with
    | none => Except.error (TusError.MissingHeader UPLOAD_OFFSET)
    | some n => Except.ok (metadata.with_bytes_uploaded n)
  | _ => Except.ok metadata

/-- Client::run of src/client.rs, restricted to what happens once the transport has
returned a response: the status-code classification (lines 71-88). The function
consumes exactly one response and issues no further request, so no branch retries. -/
def Client.run (op : TusOp) (metadata : UploadMeta) (response : Response) :
    Except TusError UploadMeta :=
  if 200 ≤ response.status ∧ response.status ≤ 299 then
    TusOp.handle_response op response metadata
  else if response.status = 400 then Except.error (TusError.BadRequest response.text)
  else if response.status = 404 then Except.error TusError.NotFoundError
  else if response.status = 409 then Except.error TusError.WrongUploadOffsetError
  else if response.status = 413 then Except.error TusError.FileTooLarge
  else if response.status = 460 then Except.error TusError.ChecksumMismatch
  else Except.error (TusError.UnexpectedStatusCode response.status response.text)

/-- Client::terminate of src/client.rs: run the termination operation on the outcome
the transport produced (an error of the transport itself or a response), bind the
result, and discard it; Ok(()) is returned unconditionally. -/
def Client.terminate (metadata : UploadMeta) (transport : Except TusError Response) :
    Except TusError Unit :=
  let _result := transport.bind (fun r => Client.run TusOp.Termination metadata r)
  Except.ok ()

/-- The loop of Client::resume: read up to chunksize bytes from the remaining file
contents (the reader cursor advances independently of the metadata), fail with the
zero-bytes FileReadError when the read returns nothing, otherwise run one Upload
through the dispatcher-and-transport function runUpload and stop once
upload_complete holds. -/
def resumeLoop (runUpload : UploadMeta → List Nat → Except TusError UploadMeta)
    (chunksize : Nat) (metadata : UploadMeta) (remaining : List Nat) :
    Except TusError UploadMeta :=
  if _h : min chunksize remaining.length = 0 then
    Except.error (TusError.FileReadError "Zero bytes read from file")
  else
    match runUpload metadata (remaining.take chunksize) with
    | Except.error e => Except.error e
    | Except.ok m2 =>
      if m2.upload_complete then Except.ok m2
      else resumeLoop runUpload chunksize m2 (remaining.drop chunksize)
termination_by remaining.length
decreasing_by
  simp only [List.length_drop]
  omega

/-- Client::resume of src/client.rs: open the file, seek to bytes_uploaded, and run
the chunk loop. fileBytes is the content of the local file; runUpload stands for
self.run(TusOp::Upload, meta, chunk) including the transport. -/
def Client.resume (runUpload : UploadMeta → List Nat → Except TusError UploadMeta)
    (chunksize : Nat) (fileBytes : List Nat) (metadata : UploadMeta) :
    Except TusError UploadMeta :=
  resumeLoop runUpload chunksize metadata (fileBytes.drop metadata.status.bytes_uploaded)

/-- Modelled from the spec: the entry order the specification prescribes for the
Upload-Metadata value, the filename entry first, then the optional mime-type entry,
then the extra metadata entries. Used only to compare against data64Outputs. -/
def claimedDataEntries (m : UploadMeta) : List (String × String) :=
  (("filename", m.file_path) ::
    (match m.mime_type with
     | some mime => [("filetype", mime)]
     | none => [])) ++
  (match m.extra_meta with
   | some extra => extra
   | none => [])

/-- Modelled from the spec: the single header value the order claim would force,
the comma join of the encoded entries in the claimed fixed order. -/
def claimedData64 (m : UploadMeta) : String :=
  joinComma ((claimedDataEntries m).map encodePair)

/-- Fixture for the codec round-trip claim: an upload of local file "a" with no
mime type and no extra metadata, so its metadata map is the singleton filename map. -/
def metaA : UploadMeta := ⟨"http://h/", "a", none, ⟨0, 1⟩, "1", none, none, none, 0⟩

/-- Fixture for the entry-order claim: an upload with a mime type, so its metadata
map has two entries. -/
def meta1 : UploadMeta := ⟨"http://h/", "f", none, ⟨0, 1⟩, "1", none, some "t", none, 0⟩

/-- Fixture for the custom-header-precedence claim: a caller-supplied Content-Type. -/
def meta2 : UploadMeta :=
  ⟨"http://h/", "f", none, ⟨64, 128⟩, "1", none, none, some [("Content-Type", "text/plain")], 0⟩

/-- Fixture for the custom-header-precedence witness: a non-colliding custom header. -/
def metaC6b : UploadMeta :=
  ⟨"http://h/", "f", none, ⟨64, 128⟩, "1", none, none, some [("X-Custom", "1")], 0⟩

/-- Fixture for the monotonicity claim: ten bytes already uploaded out of a hundred. -/
def meta3 : UploadMeta := ⟨"http://h/", "f", some "http://h/x", ⟨10, 100⟩, "1", none, none, none, 0⟩

/-- Fixture for the monotonicity claim: a successful Upload response whose
Upload-Offset is smaller than the bytes already uploaded. -/
def resp3 : Response := ⟨204, [("Upload-Offset", "3")], none⟩

/-- Fixture for the verb-table claim: size 128 with 64 bytes uploaded. -/
def meta5 : UploadMeta := ⟨"http://h/", "f", some "http://h/x", ⟨64, 128⟩, "1", none, none, none, 0⟩

/-- Fixture for the state-invariant claim: a fresh upload of a ten-byte file. -/
def meta9 : UploadMeta := ⟨"http://h/", "f", some "http://h/x", ⟨0, 10⟩, "1", none, none, none, 0⟩

/-- Fixture for the state-invariant claim: a successful Upload response reporting an
offset far beyond the file size. -/
def resp9 : Response := ⟨204, [("Upload-Offset", "999")], none⟩

/-- Fixture for the status-classification witness. -/
def metaC2 : UploadMeta := ⟨"http://h/", "f", some "http://h/x", ⟨0, 10⟩, "1", none, none, none, 0⟩

/-- Fixture for the status-classification witness: a 404 response. -/
def resp404 : Response := ⟨404, [], some "gone"⟩

/-- Fixture for the resume-at-completion witness: an empty file already fully uploaded. -/
def metaWres : UploadMeta := ⟨"http://h/", "f", some "http://h/x", ⟨0, 0⟩, "1", none, none, none, 0⟩

/-- Lookup ignores a later-inserted binding for a different key: the filtered tail
keeps exactly the entries whose key is not the inserted one. -/
theorem find_filter_ne (k k2 : String) (h : List (String × String)) (hk : k ≠ k2) :
    (h.filter (fun p => p.1 != k2)).find? (fun p => p.1 == k) =
      h.find? (fun p => p.1 == k) := by
  induction h with
  | nil => rfl
  | cons a l ih =>
    by_cases ha : a.1 = k2
    · have h1 : (a.1 != k2) = false := by simp [ha]
      have h2 : (a.1 == k) = false := by
        simp only [beq_eq_false_iff_ne, ne_eq, ha]
        exact fun hc => hk hc.symm
      simp [List.filter_cons, h1, List.find?_cons, h2, ih]
    · have h1 : (a.1 != k2) = true := by simp [ha]
      by_cases hak : a.1 = k
      · have h2 : (a.1 == k) = true := by simp [hak]
        simp [List.filter_cons, h1, List.find?_cons, h2]
      · have h2 : (a.1 == k) = false := by simp [hak]
        simp [List.filter_cons, h1, List.find?_cons, h2, ih]

/-- Inserting a binding makes it the one lookup returns. -/
theorem hget_hinsert_self (k v : String) (h : List (String × String)) :
    hget k (hinsert k v h) = some v := by
  simp [hget, hinsert, List.find?_cons]

/-- Inserting a binding for another key does not change a lookup. -/
theorem hget_hinsert_ne (k k2 v : String) (h : List (String × String)) (hk : k ≠ k2) :
    hget k (hinsert k2 v h) = hget k h := by
  have h2 : ((k2, v).1 == k) = false := by
    simp only [beq_eq_false_iff_ne, ne_eq]
    exact fun hc => hk hc.symm
  simp [hget, hinsert, List.find?_cons, h2, find_filter_ne k k2 h hk]

/-- Extending with entries whose keys all differ from k does not change the lookup. -/
theorem hget_hextend_not_mem (k : String) (h ch : List (String × String))
    (hk : ∀ p ∈ ch, p.1 ≠ k) : hget k (hextend h ch) = hget k h := by
  induction ch generalizing h with
  | nil => rfl
  | cons c cs ih =>
    have hstep : hextend h (c :: cs) = hextend (hinsert c.1 c.2 h) cs := rfl
    rw [hstep, ih (hinsert c.1 c.2 h) (fun p hp => hk p (List.mem_cons_of_mem _ hp))]
    exact hget_hinsert_ne k c.1 c.2 h (fun he => hk c (List.mem_cons_self _ _) he.symm)

/-- Extending with a map whose keys are distinct makes each of its bindings the one
lookup returns. -/
theorem hget_hextend_mem (k v : String) (h ch : List (String × String))
    (hnodup : (ch.map Prod.fst).Nodup) (hmem : (k, v) ∈ ch) :
    hget k (hextend h ch) = some v := by
  induction ch generalizing h with
  | nil => cases hmem
  | cons c cs ih =>
    have hnd : c.1 ∉ cs.map Prod.fst ∧ (cs.map Prod.fst).Nodup := by
      rw [List.map_cons] at hnodup
      exact List.nodup_cons.mp hnodup
    rcases List.mem_cons.mp hmem with hc | hcs
    · subst hc
      have hstep : hextend h ((k, v) :: cs) = hextend (hinsert k v h) cs := rfl
      rw [hstep, hget_hextend_not_mem k (hinsert k v h) cs ?keys]
      · exact hget_hinsert_self k v h
      case keys =>
        intro p hp he
        have hmm : p.1 ∈ cs.map Prod.fst := List.mem_map_of_mem Prod.fst hp
        rw [he] at hmm
        exact hnd.1 hmm
    · have hstep : hextend h (c :: cs) = hextend (hinsert c.1 c.2 h) cs := rfl
      rw [hstep]
      exact ih (hinsert c.1 c.2 h) hnd.2 hcs

/-- C1: the metadata-header codec does not round-trip. The claim states that
decoding the encoded upload-metadata header yields the original mapping back, with
one delimiter used symmetrically by UploadMeta::data64 and the Upload-Metadata
branch of the TusHeaders decoder. Evaluated at the singleton mapping of metaA
(filename "a"): data64 produces the comma-joined plain-key pair "filename YQ==",
but the decoder base64-decodes the whole header value (which fails on this string,
yielding an absent field) and would split on the different delimiter ';'; the
decoded metadata is absent, not the original mapping. -/
theorem metadata_codec_roundtrip_fails :
    dataMap metaA = [("filename", "a")]
    ∧ data64Outputs metaA = ["filename YQ=="]
    ∧ decodeUploadMetadataValue "filename YQ==" = some none
    ∧ (TusHeaders.fromHeaderMap [(UPLOAD_METADATA, "filename YQ==")]).map
        (fun th => th.upload_metadata) = some none := by
  decide

/-- C2: Client::run classifies the numeric status uniformly and independently of the
operation: any 2xx status runs the operation decode rule, 400 maps to BadRequest
with the body text, 404 to NotFoundError, 409 to WrongUploadOffsetError, 413 to
FileTooLarge, 460 to ChecksumMismatch, and every other status to
UnexpectedStatusCode carrying the code and body text. The embedded run consumes
exactly one response and issues no request, so no branch retries. -/
theorem run_status_classification (op : TusOp) (meta : UploadMeta) (resp : Response) :
    (200 ≤ resp.status → resp.status ≤ 299 →
      Client.run op meta resp = TusOp.handle_response op resp meta)
    ∧ (resp.status = 400 →
      Client.run op meta resp = Except.error (TusError.BadRequest resp.text))
    ∧ (resp.status = 404 → Client.run op meta resp = Except.error TusError.NotFoundError)
    ∧ (resp.status = 409 →
      Client.run op meta resp = Except.error TusError.WrongUploadOffsetError)
    ∧ (resp.status = 413 → Client.run op meta resp = Except.error TusError.FileTooLarge)
    ∧ (resp.status = 460 → Client.run op meta resp = Except.error TusError.ChecksumMismatch)
    ∧ ((resp.status < 200 ∨ 299 < resp.status) → resp.status ≠ 400 → resp.status ≠ 404 →
      resp.status ≠ 409 → resp.status ≠ 413 → resp.status ≠ 460 →
      Client.run op meta resp =
        Except.error (TusError.UnexpectedStatusCode resp.status resp.text)) := by
  unfold Client.run
  refine ⟨?_, ?_, ?_, ?_, ?_, ?_, ?_⟩
  · intro h1 h2
    rw [if_pos ⟨h1, h2⟩]
  · intro h
    rw [if_neg (by omega), if_pos h]
  · intro h
    rw [if_neg (by omega), if_neg (by omega), if_pos h]
  · intro h
    rw [if_neg (by omega), if_neg (by omega), if_neg (by omega), if_pos h]
  · intro h
    rw [if_neg (by omega), if_neg (by omega), if_neg (by omega), if_neg (by omega),
      if_pos h]
  · intro h
    rw [if_neg (by omega), if_neg (by omega), if_neg (by omega), if_neg (by omega),
      if_neg (by omega), if_pos h]
  · intro h h400 h404 h409 h413 h460
    rw [if_neg (by omega), if_neg h400, if_neg h404, if_neg h409, if_neg h413,
      if_neg h460]

/-- Witness for the status classification: a 404 response is classified as
NotFoundError. -/
theorem run_status_classification_witness :
    Client.run TusOp.Upload metaC2 resp404 = Except.error TusError.NotFoundError :=
  (run_status_classification TusOp.Upload metaC2 resp404).2.2.1 rfl

/-- C3: offset monotonicity is not enforced. The claim states that a successful
Upload response reporting an offset smaller than the current bytes_uploaded is
surfaced as an error; evaluated at meta3 (ten bytes uploaded) and a 204 response
reporting offset three, the dispatcher succeeds and silently adopts the decreased
offset. -/
theorem upload_offset_decrease_accepted :
    Client.run TusOp.Upload meta3 resp3 = Except.ok (meta3.with_bytes_uploaded 3)
    ∧ (meta3.with_bytes_uploaded 3).status.bytes_uploaded < meta3.status.bytes_uploaded := by
  decide

/-- C4: lenient decoding of the advisory fields is not total. The claim states that
a malformed Tus-Max-Size yields an absent field and never a crash; in the
TusServerInfo decoder the value goes through parse::<usize>().unwrap(), which
panics (modelled as none) on the non-numeric value "abc", while a numeric value
and an absent header decode as expected. -/
theorem lenient_decode_max_size_panics :
    TusServerInfo.fromHeaderMap [(TUS_MAX_SIZE, "abc")] = none
    ∧ (TusServerInfo.fromHeaderMap [(TUS_MAX_SIZE, "123")]).map (fun i => i.max_size) =
        some (some 123)
    ∧ (TusServerInfo.fromHeaderMap []).map (fun i => i.max_size) = some none := by
  decide

/-- C5: the verb table of TusOp::method, evaluated on every operation the claim
names. Creation maps to POST, GetOffset to HEAD and Upload to PATCH as claimed,
and the Upload and Creation header sets carry the claimed entries; but the
termination operation maps to POST, not the DELETE the claim states. -/
theorem tusop_method_table :
    TusOp.method TusOp.Creation = TusHttpMethod.Post
    ∧ TusOp.method TusOp.GetOffset = TusHttpMethod.Head
    ∧ TusOp.method TusOp.Upload = TusHttpMethod.Patch
    ∧ TusOp.method TusOp.Termination = TusHttpMethod.Post
    ∧ TusHttpMethod.Post ≠ TusHttpMethod.Delete
    ∧ hget UPLOAD_LENGTH (TusOp.headers TusOp.Creation meta5 "md") = some "128"
    ∧ hget CONTENT_TYPE (TusOp.headers TusOp.Upload meta5 "md") =
        some "application/offset+octet-stream"
    ∧ hget UPLOAD_OFFSET (TusOp.headers TusOp.Upload meta5 "md") = some "64" := by
  decide

/-- C7: Client::terminate returns unit success for every metadata value and every
outcome of the underlying termination request, a transport failure or any
response; the result of the run is bound and discarded. -/
theorem terminate_always_ok (meta : UploadMeta) (transport : Except TusError Response) :
    Client.terminate meta transport = Except.ok () := rfl

/-- C6 counterexample: custom headers do not win on collision with the
operation-specific headers. meta2 carries a caller-supplied Content-Type, yet the
header map TusOp::headers builds for Upload carries the operation value, because
the custom headers are merged before the operation-specific inserts. -/
theorem custom_header_loses_to_operation_header :
    meta2.custom_headers = some [("Content-Type", "text/plain")]
    ∧ hget CONTENT_TYPE (TusOp.headers TusOp.Upload meta2 "") =
        some "application/offset+octet-stream"
    ∧ ("application/offset+octet-stream" : String) ≠ "text/plain" := by
  decide

/-- C6 amended: caller-supplied custom headers are merged after the always-sent
defaults (Tus-Resumable, Upload-Metadata) and win over those on collision, but the
operation-specific headers (Upload-Length for Create; Content-Type, Upload-Length,
Upload-Offset for Upload) are inserted after the custom headers and win over them.
Stated for a custom-header map with distinct names: any binding whose name is not
operation-specific is in the final map. -/
theorem custom_header_precedence_amended (op : TusOp) (meta : UploadMeta)
    (mv k v : String) (ch : List (String × String)) (hch : meta.custom_headers = some ch)
    (hnodup : (ch.map Prod.fst).Nodup) (hmem : (k, v) ∈ ch)
    (hop : ¬ k ∈ opSpecificHeaderNames op) :
    hget k (TusOp.headers op meta mv) = some v := by
  unfold TusOp.headers
  rw [hch]
  cases op with
  | Creation =>
    simp only [opSpecificHeaderNames, List.mem_singleton] at hop
    rw [hget_hinsert_ne k UPLOAD_LENGTH _ _ hop]
    exact hget_hextend_mem k v _ ch hnodup hmem
  | Upload =>
    simp only [opSpecificHeaderNames, List.mem_cons, List.not_mem_nil, or_false] at hop
    push_neg at hop
    rw [hget_hinsert_ne k UPLOAD_OFFSET _ _ hop.2.2,
      hget_hinsert_ne k UPLOAD_LENGTH _ _ hop.2.1,
      hget_hinsert_ne k CONTENT_TYPE _ _ hop.1]
    exact hget_hextend_mem k v _ ch hnodup hmem
  | GetOffset => exact hget_hextend_mem k v _ ch hnodup hmem
  | Expiration => exact hget_hextend_mem k v _ ch hnodup hmem
  | Checksum => exact hget_hextend_mem k v _ ch hnodup hmem
  | Termination => exact hget_hextend_mem k v _ ch hnodup hmem
  | Concatenation => exact hget_hextend_mem k v _ ch hnodup hmem

/-- Witness for the amended custom-header precedence, at the Upload operation and a
non-colliding custom header. -/
theorem custom_header_precedence_amended_witness :
    hget "X-Custom" (TusOp.headers TusOp.Upload metaC6b "") = some "1" :=
  custom_header_precedence_amended TusOp.Upload metaC6b "" "X-Custom" "1"
    [("X-Custom", "1")] rfl (by decide) (by decide) (by decide)

/-- Every list produced by inserting an element somewhere is a permutation of the
element consed on. -/
theorem perm_of_mem_insertsOf (a : String × String) :
    ∀ (l l2 : List (String × String)), l2 ∈ insertsOf a l → List.Perm l2 (a :: l)
  | [], l2, h => by
    simp only [insertsOf, List.mem_singleton] at h
    subst h
    exact List.Perm.refl _
  | b :: l, l2, h => by
    simp only [insertsOf, List.mem_cons, List.mem_map] at h
    rcases h with h | ⟨l3, hl3, rfl⟩
    · subst h
      exact List.Perm.refl _
    · exact ((perm_of_mem_insertsOf a l l3 hl3).cons b).trans (List.Perm.swap a b l)

/-- Every element of permsOf is a permutation of the list. -/
theorem perm_of_mem_permsOf :
    ∀ (l l2 : List (String × String)), l2 ∈ permsOf l → List.Perm l2 l
  | [], l2, h => by
    simp only [permsOf, List.mem_singleton] at h
    subst h
    exact List.Perm.refl _
  | a :: l, l2, h => by
    simp only [permsOf, List.mem_flatMap] at h
    rcases h with ⟨l3, hl3, hins⟩
    exact (perm_of_mem_insertsOf a l3 l2 hins).trans
      ((perm_of_mem_permsOf l l3 hl3).cons a)

/-- C8 counterexample: the encoded upload-metadata value is not the fixed
filename-first join the claim states. For meta1 (filename "f", mime type "t") the
mime-first string is among the values data64 can return (the code iterates a Rust
HashMap, whose order is unspecified), and it differs from the claimed
filename-first join claimedData64. -/
theorem data64_order_not_fixed :
    "filetype dA==,filename Zg==" ∈ data64Outputs meta1
    ∧ "filetype dA==,filename Zg==" ≠ claimedData64 meta1 := by
  decide

/-- C8 amended: every value UploadMeta::data64 can return is the comma join of the
"key base64(value)" encodings of the entries of the metadata map (filename entry,
optional mime-type entry, extra metadata entries) taken in some unspecified order,
a permutation of the map, rather than in the fixed filename-first order. -/
theorem data64_outputs_are_entry_permutations (meta : UploadMeta) (s : String)
    (hs : s ∈ data64Outputs meta) :
    ∃ l : List (String × String),
      List.Perm l (dataMap meta) ∧ s = joinComma (l.map encodePair) := by
  unfold data64Outputs at hs
  rcases List.mem_map.mp hs with ⟨l, hl, rfl⟩
  exact ⟨l, perm_of_mem_permsOf (dataMap meta) l hl, rfl⟩

/-- Witness for the amended entry-order statement, at meta1 and the mime-first
output. -/
theorem data64_outputs_are_entry_permutations_witness :
    ∃ l : List (String × String),
      List.Perm l (dataMap meta1) ∧
        "filetype dA==,filename Zg==" = joinComma (l.map encodePair) :=
  data64_outputs_are_entry_permutations meta1 "filetype dA==,filename Zg==" (by decide)

/-- C9 counterexample: bytes_uploaded less than or equal to size is not enforced.
UploadStatus::new accepts an initial offset beyond the size, and a successful
Upload response reporting offset 999 on a ten-byte upload is adopted by the
dispatcher, leaving bytes_uploaded far above size. -/
theorem upload_status_invariant_violated :
    (UploadStatus.new 5 (some 10)).size < (UploadStatus.new 5 (some 10)).bytes_uploaded
    ∧ Client.run TusOp.Upload meta9 resp9 = Except.ok (meta9.with_bytes_uploaded 999)
    ∧ (meta9.with_bytes_uploaded 999).status.size <
        (meta9.with_bytes_uploaded 999).status.bytes_uploaded := by
  decide

/-- C9 amended: size is fixed at creation from the file length and never changed by
with_bytes_uploaded or by any decode step, and construction yields bytes_uploaded
zero when no initial offset is given; bytes_uploaded is otherwise adopted
unchecked (from the caller at construction and from the server offset on decode),
so the bound by size holds only when those inputs respect it. -/
theorem size_fixed_and_default_offset_zero :
    (∀ size : Nat, (UploadStatus.new size none).bytes_uploaded = 0
      ∧ (UploadStatus.new size none).size = size)
    ∧ (∀ (meta : UploadMeta) (n : Nat),
        (UploadMeta.with_bytes_uploaded meta n).status.size = meta.status.size)
    ∧ (∀ (op : TusOp) (resp : Response) (meta m2 : UploadMeta),
        TusOp.handle_response op resp meta = Except.ok m2 →
          m2.status.size = meta.status.size)
    ∧ (∀ (fi : FileInfo) (fp host : String) (bu : Option Nat)
        (em chs : Option (List (String × String))) (m : UploadMeta),
        UploadMeta.new fi fp host bu em chs = Except.ok m →
          m.status.size = fi.size ∧ m.status.bytes_uploaded = bu.getD 0) := by
  refine ⟨fun size => ⟨rfl, rfl⟩, fun meta n => rfl, ?_, ?_⟩
  · intro op resp meta m2 h
    cases op with
    | Creation =>
      simp only [TusOp.handle_response] at h
      split at h
      · exact Except.noConfusion h
      · injection h with h2
        subst h2
        rfl
    | GetOffset =>
      simp only [TusOp.handle_response] at h
      split at h
      · exact Except.noConfusion h
      · split at h
        · exact Except.noConfusion h
        · injection h with h2
          subst h2
          rfl
    | Upload =>
      simp only [TusOp.handle_response] at h
      split at h
      · exact Except.noConfusion h
      · injection h with h2
        subst h2
        rfl
    | Expiration =>
      simp only [TusOp.handle_response] at h
      injection h with h2
      subst h2
      rfl
    | Checksum =>
      simp only [TusOp.handle_response] at h
      injection h with h2
      subst h2
      rfl
    | Termination =>
      simp only [TusOp.handle_response] at h
      injection h with h2
      subst h2
      rfl
    | Concatenation =>
      simp only [TusOp.handle_response] at h
      injection h with h2
      subst h2
      rfl
  · intro fi fp host bu em chs m h
    unfold UploadMeta.new at h
    split at h
    · exact Except.noConfusion h
    · injection h with h2
      subst h2
      exact ⟨rfl, rfl⟩

/-- Witness for the amended state invariant: the decode step of the Upload response
resp9 preserves the size of meta9. -/
theorem size_fixed_and_default_offset_zero_witness :
    (meta9.with_bytes_uploaded 999).status.size = meta9.status.size :=
  size_fixed_and_default_offset_zero.2.2.1 TusOp.Upload resp9 meta9
    (meta9.with_bytes_uploaded 999) (by decide)

/-- C10: resume on an already complete upload does not return success. With the
local file length equal to size and bytes_uploaded at least size, the seek lands at
end of file, the first read yields zero bytes, and resume returns the zero-bytes
FileReadError whatever the Upload operation would do, since the completeness check
runs only after an Upload has succeeded. -/
theorem resume_complete_returns_read_error
    (runUpload : UploadMeta → List Nat → Except TusError UploadMeta)
    (chunksize : Nat) (fileBytes : List Nat) (meta : UploadMeta)
    (hsize : meta.status.size = fileBytes.length)
    (hdone : meta.status.size ≤ meta.status.bytes_uploaded) :
    Client.resume runUpload chunksize fileBytes meta =
      Except.error (TusError.FileReadError "Zero bytes read from file") := by
  unfold Client.resume
  have hdrop : fileBytes.drop meta.status.bytes_uploaded = [] :=
    List.drop_eq_nil_of_le (by omega)
  rw [hdrop]
  unfold resumeLoop
  simp

/-- Witness for resume at completion: the empty file fully uploaded. -/
theorem resume_complete_returns_read_error_witness :
    Client.resume (fun m _ => Except.ok m) 4 [] metaWres =
      Except.error (TusError.FileReadError "Zero bytes read from file") :=
  resume_complete_returns_read_error (fun m _ => Except.ok m) 4 [] metaWres rfl
    (by decide)
